import Mathlib

/-
Verification development for the glitch-clocks lane scheduler and effect
engine (src/glitch-clocks.ino).  The sketch drives up to four
reversing-polarity pulse lanes from a single cooperative loop: per-lane
pulse scheduling under a minimum-off gate, plus a global mode register
arbitrating a library of timed effects.

Shallow embedding conventions:
  *  the millisecond clock is a Nat taken modulo 2^32 (millis() wraps);
     every deadline comparison in the source is the signed 32-bit
     difference test ((int32_t)(now - target) >= 0), embedded as sdiff;
  *  float lane parameters (baseHz, nudgeMul, weights) are embedded as
     exact rationals;
  *  calls to the random source (esp_random / random) are passed in as
     explicit raw draw arguments, combined exactly as the source does;
  *  the pin/serial I/O layer is out of scope (it carries no state the
     core reads back).
-/

namespace GlitchClocks

/-- Modulus 2^32 of the millisecond clock and of uint32 arithmetic. -/
def U32 : Nat := 2 ^ 32

/-- Truncate a Nat to uint32, as storing into a uint32 variable does. -/
def wrap (a : Nat) : Nat := a % U32

/-- uint32 subtraction a - b (mod 2^32). -/
def wsub (a b : Nat) : Nat := (a % U32 + (U32 - b % U32)) % U32

/-- Reinterpret a uint32 value as a signed int32. -/
def toI32 (d : Nat) : Int :=
  if d % U32 < 2 ^ 31 then ((d % U32 : Nat) : Int)
  else ((d % U32 : Nat) : Int) - (U32 : Int)

/-- The canonical deadline test of the source: (int32_t)(now - target). -/
def sdiff (a b : Nat) : Int := toI32 (wsub a b)

/-- Store a possibly negative Int into a uint32 slot (two's complement wrap). -/
def iwrap (x : Int) : Nat := (x % (U32 : Int)).toNat

/-! Configuration constants, with the values of the source's globals. -/

def PULSE_ON_MS : Nat := 120
def MIN_OFF_MS : Nat := 120
def JITTER_MS : Int := 10
def GLITCH_CHECK_MS : Nat := 4000

def BURST_MIN_PULSES : Nat := 3
def BURST_MAX_PULSES : Nat := 8
def BURST_TARGET_MS : Nat := 150

def LONG_PAUSE_MIN_MS : Nat := 10000
def LONG_PAUSE_MAX_MS : Nat := 14000
def LONG_PAUSE_COOLDOWN : Nat := 40000

def STAGGER_STOP_STEP_MS : Nat := 700
def STAGGER_SILENCE_MS : Nat := 3500

def SYNC_BPM : Nat := 120
def SYNC_HOLD_MS : Nat := 8000
def SYNC_COOLDOWN_MS : Nat := 10000

def ACCEL_DUR_MS : Nat := 10000
def DECEL_DUR_MS : Nat := 10000
def COUNTERBAL_DUR_MS : Nat := 8000
def STORM_DUR_MS : Nat := 3500
def STORM_TICK_MIN_MS : Nat := 180
def STORM_TICK_MAX_MS : Nat := 350
def SCOPE_DUR_MS : Nat := 60000
def SCOPE_DH : ℚ := 1 / 100

/-! Random draws.  The source's rng(lo, hi) is lo + esp_random() % (hi-lo+1)
and Arduino random(lo, hi) yields a value in [lo, hi).  We pass the raw
draw in explicitly and combine it the way the source does. -/

/-- rng(lo, hi) on unsigned arguments: lo + raw % (hi - lo + 1). -/
def rngN (lo hi raw : Nat) : Nat := lo + raw % (hi - lo + 1)

/-- rng(lo, hi) with int32 bounds (used for signed jitter). -/
def rngI (lo hi : Int) (raw : Nat) : Int := lo + ((raw % (hi - lo + 1).toNat : Nat) : Int)

/-- The per-pulse jitter draw of scheduleNext: rng(-JITTER_MS, JITTER_MS)
when JITTER_MS > 0, else 0. -/
def jitterOf (raw : Nat) : Int :=
  if 0 < JITTER_MS then rngI (-JITTER_MS) JITTER_MS raw else 0

/-! Lane state (struct Lane).  Pins are I/O config and carry no core state. -/

structure Lane where
  baseHz : ℚ
  nudgeMul : ℚ
  nudgeUntil : Nat
  nextDue : Nat
  nextFree : Nat
  coilOffAt : Nat
  running : Bool
  pol : Bool
  minute : Nat
  freezeUntil : Nat
  burstRemain : Nat
  savedHz : ℚ
deriving DecidableEq

/-- roundf for the nonnegative quantities the source rounds (half up). -/
def qround (q : ℚ) : Int := ⌊q + 1 / 2⌋

/-- Effective frequency clamp of periodMs: max(0.001f, baseHz * nudgeMul). -/
def effHz (L : Lane) : ℚ := max (1 / 1000) (L.baseHz * L.nudgeMul)

/-- periodMs: (uint32_t)roundf(1000.0f / effHz). -/
def periodMs (L : Lane) : Nat := (qround (1000 / effHz L)).toNat

/-- Arduino constrain(amt, low, high). -/
def qconstrain (x lo hi : ℚ) : ℚ := if x < lo then lo else if hi < x then hi else x

/-- coilOn: the single pulse-energizing primitive.  Returns the updated
lane and whether it actually fired; it refuses to fire while now is
before the lane's nextFree gate, and a fired pulse records
coilOffAt = now + PULSE_ON_MS and nextFree = now + PULSE_ON_MS + MIN_OFF_MS. -/
def coilOn (L : Lane) (now : Nat) : Lane × Bool :=
  if sdiff now L.nextFree < 0 then (L, false)
  else
    ({ L with
        coilOffAt := wrap (now + PULSE_ON_MS)
        nextFree := wrap (now + PULSE_ON_MS + MIN_OFF_MS)
        pol := !L.pol
        minute := (L.minute + 1) % 60 }, true)

/-- maybeCoilOff: de-energize a completed pulse. -/
def maybeCoilOff (L : Lane) (now : Nat) : Lane :=
  if L.coilOffAt ≠ 0 ∧ 0 ≤ sdiff now L.coilOffAt then { L with coilOffAt := 0 } else L

/-- scheduleNext: advance nextDue by period + jitter, resynchronizing to
now + period + jitter when the drift now - nextDue exceeds four periods. -/
def scheduleNext (L : Lane) (now : Nat) (raw : Nat) : Lane :=
  let base := periodMs L
  let j := jitterOf raw
  if toI32 (base * 4) < sdiff now L.nextDue
  then { L with nextDue := iwrap ((now : Int) + (base : Int) + j) }
  else { L with nextDue := iwrap ((L.nextDue : Int) + (base : Int) + j) }

/-! Mode register and beat patterns. -/

inductive Mode
  | normal
  | beat
  | syncLock
  | longPause
  | staggerBlackout
  | accel
  | decel
  | scopeCreep
  | phaseSnap
  | counterbal
  | emailStorm
deriving DecidableEq

/-- struct BeatPattern: tempo, steps per bar, per-lane step sets for the
three lanes A, B, C, and the bar count. -/
structure BeatPattern where
  bpm : Nat
  steps : Nat
  stepsA : List Nat
  stepsB : List Nat
  stepsC : List Nat
  bars : Nat
deriving DecidableEq

def DEMBOW : BeatPattern := ⟨95, 16, [0, 6, 8, 14], [4, 12], [2, 6, 10, 14], 4⟩
def ROCK : BeatPattern := ⟨104, 16, [0, 8], [4, 12], [2, 6, 10, 14], 4⟩

/-- hasStep: membership of the current step in a pattern's lane set. -/
def hasStep (arr : List Nat) (s : Nat) : Bool := arr.any (fun x => x = s)

/-! The engine aggregate: the lane array (a function on indices, of which
the first n are live), the mode register and every top-level mutable of
the sketch that the core reads back. -/

structure Engine where
  n : Nat
  lane : Nat → Lane
  mode : Mode
  lastAnyPulseAt : Nat
  lastSyncEnd : Nat
  lastLongPauseEnd : Nat
  modeEndsAt : Nat
  beatPat : Option BeatPattern
  beatStepPeriod : Nat
  beatNextStepAt : Nat
  beatStep : Nat
  beatBarsLeft : Nat
  rampStart : Nat
  rampEnd : Nat
  rampTo : ℚ
  cbUp : Int
  cbDown : Int
  cbStart : Nat
  cbEnd : Nat
  cbDelta : ℚ
  stormEnd : Nat
  nextStormTick : Nat
  scopeStartHz : Nat → ℚ
  scopeStart : Nat
  scopeEnd : Nat
  snapRef : Int
  snapFol : Int
  snapEnd : Nat

/-- Apply an index-aware update to each of the n live lanes
("for (Lane* L : LANES)" loops). -/
def updLanes (e : Engine) (f : Nat → Lane → Lane) : Engine :=
  { e with lane := fun i => if i < e.n then f i (e.lane i) else e.lane i }

/-- coilOn on lane idx of the engine, recording lastAnyPulseAt on a fire. -/
def engineCoilOn (e : Engine) (idx now : Nat) : Engine :=
  let r := coilOn (e.lane idx) now
  { e with
      lane := fun i => if i = idx then r.1 else e.lane i,
      lastAnyPulseAt := if r.2 then wrap now else e.lastAnyPulseAt }

/-- The per-lane body of clearTransientsAll. -/
def clearTransients (L : Lane) : Lane :=
  { L with burstRemain := 0, freezeUntil := 0, nudgeMul := 1, nudgeUntil := 0 }

/-- clearTransientsAll: reset burst, freeze and nudge on every lane. -/
def clearTransientsAll (e : Engine) : Engine :=
  updLanes e (fun _ => clearTransients)

/-! Beat effect. -/

def startBeat (e : Engine) (now : Nat) (p : BeatPattern) : Engine :=
  let e1 := clearTransientsAll e
  let e2 := updLanes e1 fun _ L => { L with running := false }
  { e2 with
      beatPat := some p,
      beatStepPeriod := (qround ((60000 : ℚ) / (p.bpm : ℚ) / 4)).toNat,
      beatStep := 0,
      beatBarsLeft := p.bars,
      beatNextStepAt := wrap (now + 20),
      mode := Mode.beat }

def endBeat (e : Engine) (now : Nat) : Engine :=
  { (updLanes e fun _ L => { L with running := true, nextDue := wrap (now + periodMs L) }) with
      mode := Mode.normal, beatPat := none }

/-- handleBeat: on a due step, pulse lanes A, B, C (indices 0, 1, 2) as the
pattern marks them, advance the step with half-jitter, and on a wrapped
bar countdown reaching zero end the beat. -/
def handleBeat (e : Engine) (now raw : Nat) : Engine :=
  match e.beatPat with
  | none => e
  | some p =>
    if sdiff now e.beatNextStepAt < 0 then e
    else
      let e1 := if hasStep p.stepsA e.beatStep then engineCoilOn e 0 now else e
      let e2 := if hasStep p.stepsB e1.beatStep then engineCoilOn e1 1 now else e1
      let e3 := if hasStep p.stepsC e2.beatStep then engineCoilOn e2 2 now else e2
      let j := if 0 < JITTER_MS then rngI (-(JITTER_MS / 2)) (JITTER_MS / 2) raw else 0
      let e4 := { e3 with
          beatNextStepAt := iwrap ((e3.beatNextStepAt : Int) + (e3.beatStepPeriod : Int) + j),
          beatStep := (e3.beatStep + 1) % p.steps }
      if e4.beatStep = 0 ∧ e4.beatBarsLeft ≠ 0 then
        let e5 := { e4 with beatBarsLeft := e4.beatBarsLeft - 1 }
        if e5.beatBarsLeft = 0 then endBeat e5 now else e5
      else e4

/-! Sync-lock. -/

def startSyncLock (e : Engine) (now : Nat) : Engine :=
  if sdiff now e.lastSyncEnd < (SYNC_COOLDOWN_MS : Int) then e
  else
    let e1 := clearTransientsAll e
    let e2 := updLanes e1 fun _ L =>
      { L with savedHz := L.baseHz, baseHz := (SYNC_BPM : ℚ) / 60,
               running := true, nextDue := wrap (now + 50), pol := false }
    { e2 with mode := Mode.syncLock, modeEndsAt := wrap (now + SYNC_HOLD_MS) }

def endSyncLockLane (L : Lane) (now raw : Nat) : Lane :=
  let L1 := { L with baseHz := L.savedHz, nudgeMul := 1, nudgeUntil := 0 }
  { L1 with nextDue := wrap (now + periodMs L1 + rngN 0 120 raw) }

def endSyncLock (e : Engine) (now : Nat) (raws : Nat → Nat) : Engine :=
  { (updLanes e fun i L => endSyncLockLane L now (raws i)) with
      mode := Mode.normal, lastSyncEnd := wrap now }

/-! Long pause and stagger blackout. -/

def startLongPause (e : Engine) (now raw : Nat) : Engine :=
  if sdiff now e.lastLongPauseEnd < (LONG_PAUSE_COOLDOWN : Int) then e
  else
    let e1 := clearTransientsAll e
    let dur := rngN LONG_PAUSE_MIN_MS LONG_PAUSE_MAX_MS raw
    let e2 := updLanes e1 fun _ L => { L with freezeUntil := wrap (now + dur), running := false }
    { e2 with mode := Mode.longPause, modeEndsAt := wrap (now + dur) }

def endLongPause (e : Engine) (now : Nat) (raws : Nat → Nat) : Engine :=
  { (updLanes e fun i L =>
      { L with running := true, nextDue := wrap (now + periodMs L + rngN 0 120 (raws i)) }) with
      mode := Mode.normal, lastLongPauseEnd := wrap now }

def startStaggerBlackout (e : Engine) (now : Nat) : Engine :=
  let e1 := clearTransientsAll e
  let e2 := updLanes e1 fun i L =>
    { L with freezeUntil := wrap (now + STAGGER_SILENCE_MS + STAGGER_STOP_STEP_MS * (e.n - 1 - i)),
             running := false }
  { e2 with mode := Mode.staggerBlackout,
            modeEndsAt := wrap (now + STAGGER_SILENCE_MS + STAGGER_STOP_STEP_MS * (e.n - 1)) }

def endStaggerBlackout (e : Engine) (now : Nat) (raws : Nat → Nat) : Engine :=
  { (updLanes e fun i L =>
      { L with running := true,
               nextDue := wrap (now + periodMs L + rngN 0 (100 + 20 * i) (raws i)) }) with
      mode := Mode.normal }

/-! Accelerando / decelerando. -/

def startAccelerando (e : Engine) (now raw : Nat) : Engine :=
  let e1 := clearTransientsAll e
  let e2 := updLanes e1 fun _ L => { L with nudgeMul := 1, nudgeUntil := 0 }
  { e2 with mode := Mode.accel, rampStart := wrap now, rampEnd := wrap (now + ACCEL_DUR_MS),
            rampTo := ((rngN 125 140 raw : Nat) : ℚ) / 100 }

def handleAccelerando (e : Engine) (now : Nat) : Engine :=
  let t := qconstrain ((wsub now e.rampStart : ℚ) / ((wsub e.rampEnd e.rampStart : Nat) : ℚ)) 0 1
  let mul := 1 + (e.rampTo - 1) * t
  let e1 := updLanes e fun _ L => { L with nudgeMul := mul }
  if 0 ≤ sdiff now e.rampEnd then
    { (updLanes e1 fun _ L => { L with nudgeMul := 1 }) with mode := Mode.normal }
  else e1

def startDecelerando (e : Engine) (now raw : Nat) : Engine :=
  let e1 := clearTransientsAll e
  let e2 := updLanes e1 fun _ L => { L with nudgeMul := 1, nudgeUntil := 0 }
  { e2 with mode := Mode.decel, rampStart := wrap now, rampEnd := wrap (now + DECEL_DUR_MS),
            rampTo := ((rngN 70 85 raw : Nat) : ℚ) / 100 }

def handleDecelerando (e : Engine) (now : Nat) : Engine :=
  let t := qconstrain ((wsub now e.rampStart : ℚ) / ((wsub e.rampEnd e.rampStart : Nat) : ℚ)) 0 1
  let mul := 1 + (e.rampTo - 1) * t
  let e1 := updLanes e fun _ L => { L with nudgeMul := mul }
  if 0 ≤ sdiff now e.rampEnd then
    { (updLanes e1 fun _ L => { L with nudgeMul := 1 }) with mode := Mode.normal }
  else e1

/-! Counterbalance.  The source picks cbDown by the retry loop
"do { cbDown = rng(0, NLANES-1); } while (cbDown == cbUp);", embedded as
cbPickDown over a stream of raw draws (none = the loop has not produced a
value within fuel draws); the chosen pair is then a parameter of
startCounterbalance. -/

def cbPickDown (avoid n : Nat) (raws : Nat → Nat) : Nat → Option Nat
  | 0 => none
  | fuel + 1 =>
    let d := rngN 0 (n - 1) (raws fuel)
    if d = avoid then cbPickDown avoid n raws fuel else some d

def startCounterbalance (e : Engine) (now : Nat) (up down rawDelta : Nat) : Engine :=
  let e1 := updLanes e fun _ L => { L with nudgeMul := 1 }
  { e1 with mode := Mode.counterbal, cbUp := (up : Int), cbDown := (down : Int),
            cbDelta := ((rngN 20 35 rawDelta : Nat) : ℚ) / 100,
            cbStart := wrap now, cbEnd := wrap (now + COUNTERBAL_DUR_MS) }

def handleCounterbalance (e : Engine) (now : Nat) : Engine :=
  let t := qconstrain ((wsub now e.cbStart : ℚ) / ((wsub e.cbEnd e.cbStart : Nat) : ℚ)) 0 1
  let upMul := 1 + e.cbDelta * t
  let downMul := 1 - e.cbDelta * t
  let e1 := updLanes e fun i L =>
    if (i : Int) = e.cbUp then { L with nudgeMul := upMul }
    else if (i : Int) = e.cbDown then { L with nudgeMul := downMul }
    else { L with nudgeMul := 1 }
  if 0 ≤ sdiff now e.cbEnd then
    { (updLanes e1 fun _ L => { L with nudgeMul := 1 }) with mode := Mode.normal }
  else e1

/-! Email storm. -/

def pickTwoDistinct (n raw1 raw2 : Nat) : Option (Nat × Nat) :=
  if n < 2 then none
  else
    let i := raw1 % n
    some (i, (i + 1 + raw2 % (n - 1)) % n)

def startEmailStorm (e : Engine) (now : Nat) : Engine :=
  let e1 := clearTransientsAll e
  { e1 with stormEnd := wrap (now + STORM_DUR_MS), nextStormTick := wrap now,
            mode := Mode.emailStorm }

def handleEmailStorm (e : Engine) (now raw1 raw2 rawB1 rawB2 rawTick : Nat) : Engine :=
  if 0 ≤ sdiff now e.stormEnd then { e with mode := Mode.normal }
  else if 0 ≤ sdiff now e.nextStormTick then
    let e1 :=
      match pickTwoDistinct e.n raw1 raw2 with
      | some (i, j) =>
          { e with lane := fun k =>
              if k = i then
                { e.lane k with burstRemain := rngN BURST_MIN_PULSES BURST_MAX_PULSES rawB1 }
              else if k = j then
                { e.lane k with burstRemain := rngN BURST_MIN_PULSES BURST_MAX_PULSES rawB2 }
              else e.lane k }
      | none =>
          { e with lane := fun k =>
              if k = 0 then
                { e.lane k with burstRemain := rngN BURST_MIN_PULSES BURST_MAX_PULSES rawB1 }
              else e.lane k }
    { e1 with nextStormTick := wrap (now + rngN STORM_TICK_MIN_MS STORM_TICK_MAX_MS rawTick) }
  else e

/-! Reorg swap (instantaneous; touches baseHz and nextDue only). -/

def reorgSwap (e : Engine) (now : Nat) : Engine :=
  if e.n < 2 then e
  else
    let old := e.lane
    let e1 := updLanes e fun i L => { L with baseHz := (old ((i + 1) % e.n)).baseHz }
    updLanes e1 fun _ L => { L with nextDue := wrap (now + periodMs L) }

/-! Scope creep. -/

def startScopeCreep (e : Engine) (now : Nat) : Engine :=
  { e with scopeStart := wrap now, scopeEnd := wrap (now + SCOPE_DUR_MS),
           scopeStartHz := fun i => (e.lane i).baseHz, mode := Mode.scopeCreep }

def handleScopeCreep (e : Engine) (now : Nat) : Engine :=
  let t := qconstrain ((wsub now e.scopeStart : ℚ) / ((wsub e.scopeEnd e.scopeStart : Nat) : ℚ)) 0 1
  let e1 := updLanes e fun i L => { L with baseHz := e.scopeStartHz i + SCOPE_DH * t }
  if 0 ≤ sdiff now e.scopeEnd then
    { (updLanes e1 fun i L => { L with baseHz := e.scopeStartHz i }) with mode := Mode.normal }
  else e1

/-! Phase snap.  The follower is picked by the same retry-loop idiom as
counterbalance (cbPickDown); the chosen pair is a parameter here. -/

def startPhaseSnap (e : Engine) (now ref fol : Nat) : Engine :=
  let snapLane := fun i =>
    if i = fol then
      { e.lane i with savedHz := (e.lane i).baseHz,
                      baseHz := (e.lane ref).baseHz,
                      nextDue := (e.lane ref).nextDue }
    else e.lane i
  { e with lane := snapLane,
           snapRef := (ref : Int), snapFol := (fol : Int),
           snapEnd := wrap (now + 4000), mode := Mode.phaseSnap }

def handlePhaseSnap (e : Engine) (now : Nat) : Engine :=
  let fol := e.snapFol.toNat
  let refL := e.lane e.snapRef.toNat
  let folLane := fun i =>
    if i = fol then { e.lane i with baseHz := refL.baseHz, nextDue := refL.nextDue }
    else e.lane i
  let e1 := { e with lane := folLane }
  if 0 ≤ sdiff now e.snapEnd then
    { e1 with
        lane := fun i =>
          if i = fol then { e1.lane i with baseHz := (e1.lane i).savedHz } else e1.lane i,
        mode := Mode.normal }
  else e1

/-! Weighted effect selection.  buildWeights fills cumW[i] with the
running sum of the weights and caps cumW[NEFF] at 1.0; pickAndStartEffect
takes the first branch whose boundary exceeds the draw, with the subtle
per-lane glitch as the implicit fallback past all named weights. -/

/-- The configured weight list, in WEIGHT_PTRS order: pause, stagger,
sync, beat, accel, decel, counter, storm, snap, scope, reorg. -/
def weights : List ℚ :=
  [8 / 100, 8 / 100, 10 / 100, 3 / 100, 10 / 100, 10 / 100,
   8 / 100, 8 / 100, 6 / 100, 6 / 100, 6 / 100]

/-- The table buildWeights computes: cumW i for i < NEFF is the sum of
the first i+1 weights, and the entry at NEFF is capped at 1.0. -/
def cumW (ws : List ℚ) (i : Nat) : ℚ :=
  if i < ws.length then (ws.take (i + 1)).sum else 1

/-- Lower boundary of bucket i (zero for the first named bucket). -/
def bucketLow (ws : List ℚ) (i : Nat) : ℚ :=
  if i = 0 then 0 else cumW ws (i - 1)

/-- Draw r selects bucket i: the branch r < cumW[i] with r past every
earlier boundary.  Bucket ws.length is the implicit fallback. -/
def inBucket (ws : List ℚ) (r : ℚ) (i : Nat) : Prop :=
  bucketLow ws i ≤ r ∧ r < cumW ws i

instance (ws : List ℚ) (r : ℚ) (i : Nat) : Decidable (inBucket ws r i) := by
  unfold inBucket; infer_instance

/-! The per-lane scheduler sweep at the bottom of loop(): de-energize,
nudge expiry, freeze handling, owed bursts, then the autonomous catch-up
loop.  The while loop is embedded with explicit fuel; the Bool result
records whether the lane fired this tick. -/

def autoRun (now : Nat) (raws : Nat → Nat) : Nat → Lane → Lane × Bool
  | 0, L => (L, false)
  | fuel + 1, L =>
    if sdiff now L.nextDue < 0 then (L, false)
    else if sdiff now L.nextFree < 0 then ({ L with nextDue := L.nextFree }, false)
    else
      let L1 := scheduleNext (coilOn L now).1 now (raws fuel)
      if sdiff now L1.nextDue < 0 then (L1, true)
      else ((autoRun now raws fuel L1).1, true)

def laneTick (L0 : Lane) (now : Nat) (raws : Nat → Nat) (fuel : Nat) : Lane × Bool :=
  let La := maybeCoilOff L0 now
  let Lb := if La.nudgeUntil ≠ 0 ∧ 0 ≤ sdiff now La.nudgeUntil
            then { La with nudgeMul := 1, nudgeUntil := 0 } else La
  if Lb.freezeUntil ≠ 0 ∧ sdiff now Lb.freezeUntil < 0 then
    ({ Lb with nextDue := wrap (now + 10) }, false)
  else
    let Lc := if Lb.freezeUntil ≠ 0 ∧ 0 ≤ sdiff now Lb.freezeUntil
              then { Lb with freezeUntil := 0 } else Lb
    if 0 < Lc.burstRemain ∧ 0 ≤ sdiff now Lc.nextFree then
      let Ld := (coilOn Lc now).1
      ({ Ld with burstRemain := Ld.burstRemain - 1,
                 nextDue := wrap (now + BURST_TARGET_MS) }, true)
    else if Lc.running = false then (Lc, false)
    else autoRun now raws fuel Lc

/-! Startup state: the four lanes with their nominal tempos, mode Normal. -/

def initLane (hz : ℚ) : Lane :=
  { baseHz := hz, nudgeMul := 1, nudgeUntil := 0, nextDue := 0, nextFree := 0,
    coilOffAt := 0, running := true, pol := false, minute := 0,
    freezeUntil := 0, burstRemain := 0, savedHz := 1 }

/-- setupLane: arm nextDue with a small random offset, open the gate. -/
def setupLane (L : Lane) (now raw : Nat) : Lane :=
  { L with nextDue := wrap (now + rngN 0 500 raw), nextFree := wrap now }

/-- The configured nominal tempos BASE_HZ_A..D. -/
def BASE_HZ : Nat → ℚ := fun i =>
  if i = 0 then 1 else if i = 1 then 98 / 100 else if i = 2 then 102 / 100
  else if i = 3 then 101 / 100 else 1

def initEngine (now : Nat) (raws : Nat → Nat) : Engine :=
  { n := 4,
    lane := fun i => setupLane (initLane (BASE_HZ i)) now (raws i),
    mode := Mode.normal,
    lastAnyPulseAt := wrap now,
    lastSyncEnd := 0, lastLongPauseEnd := 0, modeEndsAt := 0,
    beatPat := none, beatStepPeriod := 0, beatNextStepAt := 0,
    beatStep := 0, beatBarsLeft := 0,
    rampStart := 0, rampEnd := 0, rampTo := 1,
    cbUp := -1, cbDown := -1, cbStart := 0, cbEnd := 0, cbDelta := 20 / 100,
    stormEnd := 0, nextStormTick := 0,
    scopeStartHz := fun _ => 0, scopeStart := 0, scopeEnd := 0,
    snapRef := -1, snapFol := -1, snapEnd := 0 }

/-- A concrete engine value used by the witness instances. -/
def e0 : Engine := initEngine 0 (fun _ => 0)

/-- e0 with a pending burst on every lane, to observe which start
routines clear transients. -/
def eBurst : Engine :=
  { e0 with lane := fun i => { e0.lane i with burstRemain := 5 } }

/-- A one-lane engine inside an open storm window, for the
fewer-than-two-lanes paths. -/
def eOne : Engine := { e0 with n := 1, stormEnd := 1000, nextStormTick := 0 }

/-! Basic facts about the engine combinators. -/

theorem updLanes_lane (e : Engine) (f : Nat → Lane → Lane) (i : Nat) :
    (updLanes e f).lane i = if i < e.n then f i (e.lane i) else e.lane i := rfl

theorem updLanes_n (e : Engine) (f : Nat → Lane → Lane) : (updLanes e f).n = e.n := rfl

theorem updLanes_mode (e : Engine) (f : Nat → Lane → Lane) :
    (updLanes e f).mode = e.mode := rfl

theorem clearTransientsAll_lane (e : Engine) (i : Nat) (h : i < e.n) :
    (clearTransientsAll e).lane i = clearTransients (e.lane i) := by
  simp [clearTransientsAll, updLanes, h]

/-- C6: calling startSyncLock inside the sync cooldown window, or
startLongPause inside the long-pause cooldown window, returns the engine
completely unchanged: the guard fires before any mutation, so every lane
field, the mode register and all effect state are identical. -/
theorem cooldown_guard_noop (e e2 : Engine) (now now2 raw : Nat)
    (hs : sdiff now e.lastSyncEnd < (SYNC_COOLDOWN_MS : Int))
    (hp : sdiff now2 e2.lastLongPauseEnd < (LONG_PAUSE_COOLDOWN : Int)) :
    startSyncLock e now = e ∧ startLongPause e2 now2 raw = e2 := by
  constructor
  · unfold startSyncLock
    rw [if_pos hs]
  · unfold startLongPause
    rw [if_pos hp]

theorem cooldown_guard_noop_witness :
    (sdiff 3 e0.lastSyncEnd < (SYNC_COOLDOWN_MS : Int) ∧
     sdiff 3 e0.lastLongPauseEnd < (LONG_PAUSE_COOLDOWN : Int)) ∧
    (startSyncLock e0 3 = e0 ∧ startLongPause e0 3 0 = e0) :=
  ⟨⟨by decide, by decide⟩, cooldown_guard_noop e0 e0 3 3 0 (by decide) (by decide)⟩

/-- C9: startStaggerBlackout freezes lane i until
now + silence_window + step * (N-1-i): the highest index gets exactly the
silence window and resumes first, index 0 the longest freeze; with the
configured 3500 ms window and 700 ms step on the 4-lane engine the
freeze ends are 5600, 4900, 4200, 3500 ms for indices 0..3. -/
theorem stagger_freeze_schedule (e : Engine) (now i : Nat) (hi : i < e.n) :
    ((startStaggerBlackout e now).lane i).freezeUntil
      = wrap (now + STAGGER_SILENCE_MS + STAGGER_STOP_STEP_MS * (e.n - 1 - i)) ∧
    ((startStaggerBlackout e0 0).lane 0).freezeUntil = 5600 ∧
    ((startStaggerBlackout e0 0).lane 1).freezeUntil = 4900 ∧
    ((startStaggerBlackout e0 0).lane 2).freezeUntil = 4200 ∧
    ((startStaggerBlackout e0 0).lane 3).freezeUntil = 3500 := by
  refine ⟨?_, by decide, by decide, by decide, by decide⟩
  unfold startStaggerBlackout
  simp [updLanes, clearTransientsAll, hi]

theorem stagger_freeze_schedule_witness :
    (2 : Nat) < e0.n ∧
    ((startStaggerBlackout e0 0).lane 2).freezeUntil
      = wrap (0 + STAGGER_SILENCE_MS + STAGGER_STOP_STEP_MS * (e0.n - 1 - 2)) :=
  ⟨by decide, (stagger_freeze_schedule e0 0 2 (by decide)).1⟩

theorem periodMs_eq_of (L L' : Lane) (hb : L.baseHz = L'.baseHz)
    (hm : L.nudgeMul = L'.nudgeMul) : periodMs L = periodMs L' := by
  unfold periodMs effHz
  rw [hb, hm]

/-- C2: the mode register is a single Mode value that starts Normal;
every effect's end path (the end routines of sync-lock, long-pause,
stagger and beat, and the completion branches of the ramp, counter,
scope, snap and storm handlers) writes Normal back; and reorgSwap
rotates base_hz one position and reschedules next_due without touching
the mode register. -/
theorem mode_register (e : Engine) (now : Nat) (raws : Nat → Nat)
    (r1 r2 b1 b2 tk i : Nat) :
    (initEngine now raws).mode = Mode.normal ∧
    (endSyncLock e now raws).mode = Mode.normal ∧
    (endLongPause e now raws).mode = Mode.normal ∧
    (endStaggerBlackout e now raws).mode = Mode.normal ∧
    (endBeat e now).mode = Mode.normal ∧
    (0 ≤ sdiff now e.rampEnd → (handleAccelerando e now).mode = Mode.normal) ∧
    (0 ≤ sdiff now e.rampEnd → (handleDecelerando e now).mode = Mode.normal) ∧
    (0 ≤ sdiff now e.cbEnd → (handleCounterbalance e now).mode = Mode.normal) ∧
    (0 ≤ sdiff now e.scopeEnd → (handleScopeCreep e now).mode = Mode.normal) ∧
    (0 ≤ sdiff now e.snapEnd → (handlePhaseSnap e now).mode = Mode.normal) ∧
    (0 ≤ sdiff now e.stormEnd → (handleEmailStorm e now r1 r2 b1 b2 tk).mode = Mode.normal) ∧
    (reorgSwap e now).mode = e.mode ∧
    (2 ≤ e.n → i < e.n →
      ((reorgSwap e now).lane i).baseHz = (e.lane ((i + 1) % e.n)).baseHz ∧
      ((reorgSwap e now).lane i).nextDue
        = wrap (now + periodMs ((reorgSwap e now).lane i))) := by
  refine ⟨rfl, rfl, rfl, rfl, rfl, ?_, ?_, ?_, ?_, ?_, ?_, ?_, ?_⟩
  · intro h
    simp [handleAccelerando, h]
  · intro h
    simp [handleDecelerando, h]
  · intro h
    simp [handleCounterbalance, h]
  · intro h
    simp [handleScopeCreep, h]
  · intro h
    simp [handlePhaseSnap, h]
  · intro h
    simp [handleEmailStorm, h]
  · unfold reorgSwap
    split
    · rfl
    · rfl
  · intro h2 hi
    have hlt : ¬ e.n < 2 := by omega
    simp [reorgSwap, updLanes, hlt, hi, periodMs, effHz]

theorem mode_register_witness :
    ((0 : Int) ≤ sdiff 0 e0.rampEnd ∧ (2 : Nat) ≤ e0.n ∧ (1 : Nat) < e0.n) ∧
    (handleAccelerando e0 0).mode = Mode.normal ∧
    (reorgSwap e0 0).mode = e0.mode ∧
    ((reorgSwap e0 0).lane 1).baseHz = (e0.lane 2).baseHz := by
  have h := mode_register e0 0 (fun _ => 0) 0 0 0 0 0 1
  refine ⟨⟨by decide, by decide, by decide⟩, h.2.2.2.2.2.1 (by decide), h.2.2.2.2.2.2.2.2.2.2.2.1, ?_⟩
  have h3 := h.2.2.2.2.2.2.2.2.2.2.2.2 (by decide) (by decide)
  exact h3.1

theorem maybeCoilOff_nextFree (L : Lane) (now : Nat) :
    (maybeCoilOff L now).nextFree = L.nextFree := by
  unfold maybeCoilOff
  split <;> rfl

theorem coilOn_gated (L : Lane) (now : Nat) (h : sdiff now L.nextFree < 0) :
    coilOn L now = (L, false) := by
  unfold coilOn
  rw [if_pos h]

theorem coilOn_fires (L : Lane) (now : Nat) (h : 0 ≤ sdiff now L.nextFree) :
    coilOn L now =
      ({ L with coilOffAt := wrap (now + PULSE_ON_MS),
                nextFree := wrap (now + PULSE_ON_MS + MIN_OFF_MS),
                pol := !L.pol, minute := (L.minute + 1) % 60 }, true) := by
  unfold coilOn
  rw [if_neg (by omega)]

theorem autoRun_gated (now : Nat) (raws : Nat → Nat) (fuel : Nat) (L : Lane)
    (h : sdiff now L.nextFree < 0) : (autoRun now raws fuel L).2 = false := by
  cases fuel with
  | zero => rfl
  | succ k =>
    simp only [autoRun]
    split
    · rfl
    · simp [h]

theorem if_nudge_nextFree (c : Prop) [Decidable c] (X : Lane) :
    (if c then { X with nudgeMul := 1, nudgeUntil := 0 } else X).nextFree = X.nextFree := by
  split <;> rfl

theorem if_freeze_nextFree (c : Prop) [Decidable c] (X : Lane) :
    (if c then { X with freezeUntil := 0 } else X).nextFree = X.nextFree := by
  split <;> rfl

theorem laneTick_gated (L : Lane) (now : Nat) (raws : Nat → Nat) (fuel : Nat)
    (h : sdiff now L.nextFree < 0) : (laneTick L now raws fuel).2 = false := by
  have hLa := maybeCoilOff_nextFree L now
  simp only [laneTick]
  set La := maybeCoilOff L now with hG
  repeat' split
  all_goals try rfl
  all_goals
    first
      | (exfalso
         rename_i hb
         have hb2 : 0 ≤ sdiff now La.nextFree := hb.2
         rw [hLa] at hb2
         omega)
      | (apply autoRun_gated
         show sdiff now La.nextFree < 0
         rw [hLa]
         exact h)

/-- C1: a pulse is never energized before the lane's nextFree gate.
coilOn is the single energizing primitive: it leaves the lane untouched
and reports no fire while now is before nextFree; a fired pulse records
coilOffAt = now + PULSE_ON_MS and nextFree = coilOffAt + MIN_OFF_MS; the
whole per-lane scheduler sweep (burst and autonomous paths included)
cannot fire while the gate is closed; and any later pulse admitted by the
gate comes at least MIN_OFF_MS after the previous pulse's de-energize
time (stated within the signed-comparison half-range of the wrapping
clock). -/
theorem minOff_gate (L : Lane) (now : Nat) :
    (sdiff now L.nextFree < 0 → coilOn L now = (L, false)) ∧
    ((coilOn L now).2 = true ↔ 0 ≤ sdiff now L.nextFree) ∧
    ((coilOn L now).2 = true →
       (coilOn L now).1.coilOffAt = wrap (now + PULSE_ON_MS) ∧
       (coilOn L now).1.nextFree = wrap ((coilOn L now).1.coilOffAt + MIN_OFF_MS)) ∧
    (∀ raws fuel, sdiff now L.nextFree < 0 → (laneTick L now raws fuel).2 = false) ∧
    (∀ now2, (coilOn L now).2 = true →
       0 ≤ sdiff now2 (coilOn L now).1.nextFree →
       wsub now2 (coilOn L now).1.coilOffAt < 2 ^ 31 →
       MIN_OFF_MS ≤ wsub now2 (coilOn L now).1.coilOffAt) := by
  refine ⟨coilOn_gated L now, ?_, ?_, fun raws fuel h => laneTick_gated L now raws fuel h, ?_⟩
  · by_cases hc : sdiff now L.nextFree < 0
    · rw [coilOn_gated L now hc]
      simp
      omega
    · rw [coilOn_fires L now (by omega)]
      simp
      omega
  · intro hf
    by_cases hc : sdiff now L.nextFree < 0
    · rw [coilOn_gated L now hc] at hf
      simp at hf
    · rw [coilOn_fires L now (by omega)]
      refine ⟨rfl, ?_⟩
      show wrap (now + PULSE_ON_MS + MIN_OFF_MS) = wrap (wrap (now + PULSE_ON_MS) + MIN_OFF_MS)
      unfold wrap U32
      omega
  · intro now2 hf hgate hlo
    by_cases hc : sdiff now L.nextFree < 0
    · rw [coilOn_gated L now hc] at hf
      simp at hf
    · rw [coilOn_fires L now (by omega)] at hgate hlo ⊢
      dsimp only at hgate hlo ⊢
      simp only [sdiff, toI32, wsub, wrap, U32, MIN_OFF_MS, PULSE_ON_MS] at hgate hlo ⊢
      split at hgate <;> omega

/-- A nominal lane whose gate is still closed at small now values. -/
def laneGated : Lane := { initLane 1 with nextFree := 100 }

/-- A nominal lane whose gate is open (nextFree = nextDue = 0). -/
def laneReady : Lane := initLane 1

theorem minOff_gate_witness :
    (sdiff 0 laneGated.nextFree < 0 ∧
      coilOn laneGated 0 = (laneGated, false)) ∧
    ((coilOn laneReady 5).2 = true ∧
      (coilOn laneReady 5).1.coilOffAt = wrap (5 + PULSE_ON_MS) ∧
      (coilOn laneReady 5).1.nextFree
        = wrap ((coilOn laneReady 5).1.coilOffAt + MIN_OFF_MS)) ∧
    (0 ≤ sdiff 300 (coilOn laneReady 5).1.nextFree ∧
      wsub 300 (coilOn laneReady 5).1.coilOffAt < 2 ^ 31 ∧
      MIN_OFF_MS ≤ wsub 300 (coilOn laneReady 5).1.coilOffAt) ∧
    (laneTick laneGated 0 (fun _ => 0) 2).2 = false := by
  refine ⟨⟨by decide, (minOff_gate laneGated 0).1 (by decide)⟩,
          ⟨by decide, (minOff_gate laneReady 5).2.2.1 (by decide)⟩,
          ⟨by decide, by decide,
            (minOff_gate laneReady 5).2.2.2.2 300 (by decide) (by decide) (by decide)⟩,
          (minOff_gate laneGated 0).2.2.2.1 (fun _ => 0) 2 (by decide)⟩

/-- C3: for a lane whose nextDue has passed, the autonomous path defers
nextDue to the gate's opening time instead of firing when the gate is
closed; firing leaves nextDue and the period unchanged going into
scheduleNext, which resynchronizes to now + period + jitter when the
drift now - nextDue exceeds four periods and otherwise advances to
previous_due + period + jitter; and with the gate open the path fires. -/
theorem autonomous_defer_and_schedule (L : Lane) (now : Nat) (raws : Nat → Nat)
    (fuel raw : Nat) (hdue : 0 ≤ sdiff now L.nextDue) :
    (sdiff now L.nextFree < 0 →
      autoRun now raws (fuel + 1) L = ({ L with nextDue := L.nextFree }, false)) ∧
    ((coilOn L now).1.nextDue = L.nextDue ∧ periodMs (coilOn L now).1 = periodMs L) ∧
    (toI32 (periodMs L * 4) < sdiff now L.nextDue →
      scheduleNext L now raw
        = { L with nextDue := iwrap ((now : Int) + (periodMs L : Int) + jitterOf raw) }) ∧
    (¬ toI32 (periodMs L * 4) < sdiff now L.nextDue →
      scheduleNext L now raw
        = { L with nextDue := iwrap ((L.nextDue : Int) + (periodMs L : Int) + jitterOf raw) }) ∧
    (0 ≤ sdiff now L.nextFree → (autoRun now raws (fuel + 1) L).2 = true) := by
  refine ⟨?_, ?_, ?_, ?_, ?_⟩
  · intro hg
    simp only [autoRun]
    rw [if_neg (by omega), if_pos hg]
  · by_cases hc : sdiff now L.nextFree < 0
    · rw [coilOn_gated L now hc]
      exact ⟨rfl, rfl⟩
    · rw [coilOn_fires L now (by omega)]
      exact ⟨rfl, rfl⟩
  · intro hdr
    simp only [scheduleNext]
    rw [if_pos hdr]
  · intro hdr
    simp only [scheduleNext]
    rw [if_neg hdr]
  · intro hg
    simp only [autoRun]
    rw [if_neg (by omega), if_neg (by omega)]
    split <;> rfl

theorem periodMs_nominal (L : Lane) (hb : L.baseHz = 1) (hm : L.nudgeMul = 1) :
    periodMs L = 1000 := by
  unfold periodMs effHz qround
  rw [hb, hm]
  norm_num [Int.floor_eq_iff]
  rfl

theorem autonomous_defer_and_schedule_witness :
    (0 ≤ sdiff 5 laneGated.nextDue ∧ sdiff 5 laneGated.nextFree < 0 ∧
      0 ≤ sdiff 5000 laneReady.nextDue ∧
      toI32 (periodMs laneReady * 4) < sdiff 5000 laneReady.nextDue ∧
      0 ≤ sdiff 5 laneReady.nextDue ∧
      ¬ toI32 (periodMs laneReady * 4) < sdiff 5 laneReady.nextDue ∧
      0 ≤ sdiff 5 laneReady.nextFree) ∧
    autoRun 5 (fun _ => 0) 1 laneGated = ({ laneGated with nextDue := laneGated.nextFree }, false) ∧
    scheduleNext laneReady 5000 0
      = { laneReady with nextDue := iwrap ((5000 : Int) + (periodMs laneReady : Int) + jitterOf 0) } ∧
    scheduleNext laneReady 5 0
      = { laneReady with nextDue := iwrap ((laneReady.nextDue : Int) + (periodMs laneReady : Int) + jitterOf 0) } ∧
    (autoRun 5 (fun _ => 0) 1 laneReady).2 = true := by
  have hp : periodMs laneReady = 1000 := periodMs_nominal laneReady rfl rfl
  have h1 := autonomous_defer_and_schedule laneGated 5 (fun _ => 0) 0 0 (by decide)
  have h2 := autonomous_defer_and_schedule laneReady 5000 (fun _ => 0) 0 0 (by decide)
  have h3 := autonomous_defer_and_schedule laneReady 5 (fun _ => 0) 0 0 (by decide)
  refine ⟨⟨by decide, by decide, by decide, ?_, by decide, ?_, by decide⟩,
         h1.1 (by decide), h2.2.2.1 ?_, h3.2.2.2.1 ?_,
         h3.2.2.2.2 (by decide)⟩ <;>
    rw [hp] <;> decide

theorem engineCoilOn_lane_ne (e : Engine) (idx now i : Nat) (h : i ≠ idx) :
    (engineCoilOn e idx now).lane i = e.lane i := by
  simp [engineCoilOn, h]

theorem endBeat_lane_pulse (x : Engine) (now i : Nat) :
    ((endBeat x now).lane i).pol = (x.lane i).pol ∧
    ((endBeat x now).lane i).coilOffAt = (x.lane i).coilOffAt ∧
    ((endBeat x now).lane i).nextFree = (x.lane i).nextFree := by
  simp only [endBeat, updLanes]
  split <;> exact ⟨rfl, rfl, rfl⟩

/-- C10: a beat update can only pulse lanes A, B and C (indices 0..2):
for every pattern, step and tick, a configured lane with index at least 3
keeps its polarity and pulse state (coilOffAt, nextFree) unchanged across
handleBeat, including the bar-countdown path through endBeat. -/
theorem handleBeat_spares_high_lanes (e : Engine) (now raw i : Nat) (h3 : 3 ≤ i) :
    ((handleBeat e now raw).lane i).pol = (e.lane i).pol ∧
    ((handleBeat e now raw).lane i).coilOffAt = (e.lane i).coilOffAt ∧
    ((handleBeat e now raw).lane i).nextFree = (e.lane i).nextFree := by
  rcases hpat : e.beatPat with _ | p
  · simp [handleBeat, hpat]
  · simp only [handleBeat, hpat]
    split
    · exact ⟨rfl, rfl, rfl⟩
    · have ne0 : i ≠ 0 := by omega
      have ne1 : i ≠ 1 := by omega
      have ne2 : i ≠ 2 := by omega
      set E1 := if hasStep p.stepsA e.beatStep then engineCoilOn e 0 now else e with hE1
      set E2 := if hasStep p.stepsB E1.beatStep then engineCoilOn E1 1 now else E1 with hE2
      set E3 := if hasStep p.stepsC E2.beatStep then engineCoilOn E2 2 now else E2 with hE3
      have l1 : E1.lane i = e.lane i := by
        rw [hE1]
        split
        · exact engineCoilOn_lane_ne e 0 now i ne0
        · rfl
      have l2 : E2.lane i = E1.lane i := by
        rw [hE2]
        split
        · exact engineCoilOn_lane_ne E1 1 now i ne1
        · rfl
      have l3 : E3.lane i = E2.lane i := by
        rw [hE3]
        split
        · exact engineCoilOn_lane_ne E2 2 now i ne2
        · rfl
      have lch : E3.lane i = e.lane i := by rw [l3, l2, l1]
      split
      · split
        · refine ⟨?_, ?_, ?_⟩
          · rw [(endBeat_lane_pulse _ now i).1]
            show (E3.lane i).pol = (e.lane i).pol
            rw [lch]
          · rw [(endBeat_lane_pulse _ now i).2.1]
            show (E3.lane i).coilOffAt = (e.lane i).coilOffAt
            rw [lch]
          · rw [(endBeat_lane_pulse _ now i).2.2]
            show (E3.lane i).nextFree = (e.lane i).nextFree
            rw [lch]
        · refine ⟨?_, ?_, ?_⟩ <;>
          · show _ = _
            rw [show ({ E3 with
                beatNextStepAt := iwrap ((E3.beatNextStepAt : Int) + (E3.beatStepPeriod : Int) +
                  if 0 < JITTER_MS then rngI (-(JITTER_MS / 2)) (JITTER_MS / 2) raw else 0),
                beatStep := (E3.beatStep + 1) % p.steps } : Engine).lane i = E3.lane i from rfl,
              lch]
      · refine ⟨?_, ?_, ?_⟩ <;>
        · show _ = _
          rw [show ({ E3 with
              beatNextStepAt := iwrap ((E3.beatNextStepAt : Int) + (E3.beatStepPeriod : Int) +
                if 0 < JITTER_MS then rngI (-(JITTER_MS / 2)) (JITTER_MS / 2) raw else 0),
              beatStep := (E3.beatStep + 1) % p.steps } : Engine).lane i = E3.lane i from rfl,
            lch]

/-- A concrete engine in beat mode (DEMBOW pattern, step due). -/
def eBeat : Engine :=
  { e0 with beatPat := some DEMBOW, beatStepPeriod := 158, beatNextStepAt := 0,
            beatStep := 0, beatBarsLeft := 4, mode := Mode.beat }

theorem handleBeat_spares_high_lanes_witness :
    (3 : Nat) ≤ 3 ∧
    (((handleBeat eBeat 5 0).lane 3).pol = (eBeat.lane 3).pol ∧
     ((handleBeat eBeat 5 0).lane 3).coilOffAt = (eBeat.lane 3).coilOffAt ∧
     ((handleBeat eBeat 5 0).lane 3).nextFree = (eBeat.lane 3).nextFree) :=
  ⟨by decide, handleBeat_spares_high_lanes eBeat 5 0 3 (by decide)⟩

/-! Field-preservation facts of the pulse primitives, used for the
whole-hold part of the sync-lock claim. -/

theorem coilOn_baseHz (L : Lane) (now : Nat) : (coilOn L now).1.baseHz = L.baseHz := by
  unfold coilOn
  split <;> rfl

theorem coilOn_nudgeMul (L : Lane) (now : Nat) : (coilOn L now).1.nudgeMul = L.nudgeMul := by
  unfold coilOn
  split <;> rfl

theorem coilOn_nudgeUntil (L : Lane) (now : Nat) :
    (coilOn L now).1.nudgeUntil = L.nudgeUntil := by
  unfold coilOn
  split <;> rfl

theorem scheduleNext_baseHz (L : Lane) (now raw : Nat) :
    (scheduleNext L now raw).baseHz = L.baseHz := by
  simp only [scheduleNext]
  split <;> rfl

theorem scheduleNext_nudgeMul (L : Lane) (now raw : Nat) :
    (scheduleNext L now raw).nudgeMul = L.nudgeMul := by
  simp only [scheduleNext]
  split <;> rfl

theorem scheduleNext_nudgeUntil (L : Lane) (now raw : Nat) :
    (scheduleNext L now raw).nudgeUntil = L.nudgeUntil := by
  simp only [scheduleNext]
  split <;> rfl

theorem maybeCoilOff_baseHz (L : Lane) (now : Nat) :
    (maybeCoilOff L now).baseHz = L.baseHz := by
  unfold maybeCoilOff
  split <;> rfl

theorem maybeCoilOff_nudgeMul (L : Lane) (now : Nat) :
    (maybeCoilOff L now).nudgeMul = L.nudgeMul := by
  unfold maybeCoilOff
  split <;> rfl

theorem maybeCoilOff_nudgeUntil (L : Lane) (now : Nat) :
    (maybeCoilOff L now).nudgeUntil = L.nudgeUntil := by
  unfold maybeCoilOff
  split <;> rfl

theorem autoRun_baseHz (now : Nat) (raws : Nat → Nat) :
    ∀ fuel L, (autoRun now raws fuel L).1.baseHz = L.baseHz := by
  intro fuel
  induction fuel with
  | zero => intro L; rfl
  | succ k ih =>
    intro L
    simp only [autoRun]
    split
    · rfl
    · split
      · rfl
      · split
        · rw [scheduleNext_baseHz, coilOn_baseHz]
        · show (autoRun now raws k _).1.baseHz = L.baseHz
          rw [ih, scheduleNext_baseHz, coilOn_baseHz]

theorem autoRun_nudgeMul (now : Nat) (raws : Nat → Nat) :
    ∀ fuel L, (autoRun now raws fuel L).1.nudgeMul = L.nudgeMul := by
  intro fuel
  induction fuel with
  | zero => intro L; rfl
  | succ k ih =>
    intro L
    simp only [autoRun]
    split
    · rfl
    · split
      · rfl
      · split
        · rw [scheduleNext_nudgeMul, coilOn_nudgeMul]
        · show (autoRun now raws k _).1.nudgeMul = L.nudgeMul
          rw [ih, scheduleNext_nudgeMul, coilOn_nudgeMul]

theorem autoRun_nudgeUntil (now : Nat) (raws : Nat → Nat) :
    ∀ fuel L, (autoRun now raws fuel L).1.nudgeUntil = L.nudgeUntil := by
  intro fuel
  induction fuel with
  | zero => intro L; rfl
  | succ k ih =>
    intro L
    simp only [autoRun]
    split
    · rfl
    · split
      · rfl
      · split
        · rw [scheduleNext_nudgeUntil, coilOn_nudgeUntil]
        · show (autoRun now raws k _).1.nudgeUntil = L.nudgeUntil
          rw [ih, scheduleNext_nudgeUntil, coilOn_nudgeUntil]

theorem laneTick_baseHz (L : Lane) (now : Nat) (raws : Nat → Nat) (fuel : Nat) :
    (laneTick L now raws fuel).1.baseHz = L.baseHz := by
  have hLa := maybeCoilOff_baseHz L now
  simp only [laneTick]
  set La := maybeCoilOff L now with hG
  repeat' split
  all_goals try rw [autoRun_baseHz]
  all_goals try rw [coilOn_baseHz]
  all_goals (show La.baseHz = L.baseHz; exact hLa)

theorem laneTick_nudgeMul (L : Lane) (now : Nat) (raws : Nat → Nat) (fuel : Nat)
    (hn : L.nudgeUntil = 0) : (laneTick L now raws fuel).1.nudgeMul = L.nudgeMul := by
  have hLa := maybeCoilOff_nudgeMul L now
  have hLaU := maybeCoilOff_nudgeUntil L now
  simp only [laneTick]
  set La := maybeCoilOff L now with hG
  have hnC : ¬ (La.nudgeUntil ≠ 0 ∧ 0 ≤ sdiff now La.nudgeUntil) :=
    fun hc => hc.1 (hLaU.trans hn)
  rw [if_neg hnC]
  repeat' split
  all_goals try rw [autoRun_nudgeMul]
  all_goals try rw [coilOn_nudgeMul]
  all_goals (show La.nudgeMul = L.nudgeMul; exact hLa)

theorem laneTick_nudgeUntil (L : Lane) (now : Nat) (raws : Nat → Nat) (fuel : Nat)
    (hn : L.nudgeUntil = 0) : (laneTick L now raws fuel).1.nudgeUntil = 0 := by
  have hLaU := maybeCoilOff_nudgeUntil L now
  simp only [laneTick]
  set La := maybeCoilOff L now with hG
  have hnC : ¬ (La.nudgeUntil ≠ 0 ∧ 0 ≤ sdiff now La.nudgeUntil) :=
    fun hc => hc.1 (hLaU.trans hn)
  rw [if_neg hnC]
  repeat' split
  all_goals try rw [autoRun_nudgeUntil]
  all_goals try rw [coilOn_nudgeUntil]
  all_goals (show La.nudgeUntil = 0; exact hLaU.trans hn)

/-- C8: sync-lock is a round trip on base_hz.  Outside the cooldown,
startSyncLock forces every lane to SYNC_BPM/60 = 2.0 Hz with nudge_mul
reset to 1.0 (and no nudge timer), so the effective frequency during the
hold is exactly 2.0 Hz — and the scheduler sweep touches neither base_hz
nor (with no nudge timer) nudge_mul for the whole hold — and endSyncLock
restores each lane's base_hz to its value immediately before the lock. -/
theorem syncLock_round_trip (e : Engine) (now : Nat)
    (hg : ¬ sdiff now e.lastSyncEnd < (SYNC_COOLDOWN_MS : Int)) (i : Nat) (hi : i < e.n) :
    ((startSyncLock e now).lane i).baseHz = 2 ∧
    ((startSyncLock e now).lane i).nudgeMul = 1 ∧
    ((startSyncLock e now).lane i).nudgeUntil = 0 ∧
    effHz ((startSyncLock e now).lane i) = 2 ∧
    (∀ now2 raws2, ((endSyncLock (startSyncLock e now) now2 raws2).lane i).baseHz
        = (e.lane i).baseHz) ∧
    (∀ L : Lane, ∀ now3 raws3 fuel,
        (laneTick L now3 raws3 fuel).1.baseHz = L.baseHz) ∧
    (∀ L : Lane, ∀ now3 raws3 fuel, L.nudgeUntil = 0 →
        (laneTick L now3 raws3 fuel).1.nudgeMul = L.nudgeMul ∧
        (laneTick L now3 raws3 fuel).1.nudgeUntil = 0) := by
  have hs : (startSyncLock e now).lane i
      = { clearTransients (e.lane i) with
            savedHz := (clearTransients (e.lane i)).baseHz,
            baseHz := (SYNC_BPM : ℚ) / 60,
            running := true, nextDue := wrap (now + 50), pol := false } := by
    unfold startSyncLock
    rw [if_neg hg]
    simp [updLanes, clearTransientsAll, hi]
  have hn' : i < (startSyncLock e now).n := by
    have he : (startSyncLock e now).n = e.n := by
      unfold startSyncLock
      rw [if_neg hg]
      rfl
    rw [he]
    exact hi
  refine ⟨?_, ?_, ?_, ?_, ?_, ?_, ?_⟩
  · rw [hs]
    show (SYNC_BPM : ℚ) / 60 = 2
    norm_num [SYNC_BPM]
  · rw [hs]
    rfl
  · rw [hs]
    rfl
  · rw [hs]
    show max (1 / 1000 : ℚ) ((SYNC_BPM : ℚ) / 60 * 1) = 2
    norm_num [SYNC_BPM]
  · intro now2 raws2
    have hz : (endSyncLock (startSyncLock e now) now2 raws2).lane i
        = endSyncLockLane ((startSyncLock e now).lane i) now2 (raws2 i) := by
      simp [endSyncLock, updLanes, hn']
    rw [hz, hs]
    rfl
  · exact fun L now3 raws3 fuel => laneTick_baseHz L now3 raws3 fuel
  · exact fun L now3 raws3 fuel hn0 =>
      ⟨laneTick_nudgeMul L now3 raws3 fuel hn0, laneTick_nudgeUntil L now3 raws3 fuel hn0⟩

theorem syncLock_round_trip_witness :
    (¬ sdiff 20000 e0.lastSyncEnd < (SYNC_COOLDOWN_MS : Int) ∧ (0 : Nat) < e0.n ∧
      laneReady.nudgeUntil = 0) ∧
    ((startSyncLock e0 20000).lane 0).baseHz = 2 ∧
    ((endSyncLock (startSyncLock e0 20000) 28000 (fun _ => 0)).lane 0).baseHz
      = (e0.lane 0).baseHz ∧
    (laneTick laneReady 5 (fun _ => 0) 2).1.baseHz = laneReady.baseHz ∧
    (laneTick laneReady 5 (fun _ => 0) 2).1.nudgeMul = laneReady.nudgeMul := by
  have h := syncLock_round_trip e0 20000 (by decide) 0 (by decide)
  exact ⟨⟨by decide, by decide, rfl⟩, h.1, h.2.2.2.2.1 28000 (fun _ => 0),
         h.2.2.2.2.2.1 laneReady 5 (fun _ => 0) 2,
         (h.2.2.2.2.2.2 laneReady 5 (fun _ => 0) 2 rfl).1⟩

/-- C4 counterexample: startPhaseSnap performs no clear-transients step:
on an engine whose lane 0 has burst_remaining = 5, lane 0 still has
burst_remaining 5 (not 0) right after Phase Snap starts. -/
theorem startPhaseSnap_keeps_burst :
    ¬ ((startPhaseSnap eBurst 0 0 1).lane 0).burstRemain = 0 := by decide

/-- C4 (amended): Email Storm, Accel, Decel, Stagger Blackout and Beat
clear every lane's transients at start (burst 0, freeze unset, nudge
1.0/unset; Stagger then installs its fresh staggered freezes);
Counterbalance resets only nudge_mul to 1.0 and leaves burst, freeze and
nudge_until untouched; Phase Snap and Scope Creep clear no transients. -/
theorem clear_transients_at_start (e : Engine) (now raw : Nat) (p : BeatPattern)
    (up down rawDelta ref fol i : Nat) (hi : i < e.n) :
    (((startEmailStorm e now).lane i).burstRemain = 0 ∧
     ((startEmailStorm e now).lane i).freezeUntil = 0 ∧
     ((startEmailStorm e now).lane i).nudgeMul = 1 ∧
     ((startEmailStorm e now).lane i).nudgeUntil = 0) ∧
    (((startAccelerando e now raw).lane i).burstRemain = 0 ∧
     ((startAccelerando e now raw).lane i).freezeUntil = 0 ∧
     ((startAccelerando e now raw).lane i).nudgeMul = 1 ∧
     ((startAccelerando e now raw).lane i).nudgeUntil = 0) ∧
    (((startDecelerando e now raw).lane i).burstRemain = 0 ∧
     ((startDecelerando e now raw).lane i).freezeUntil = 0 ∧
     ((startDecelerando e now raw).lane i).nudgeMul = 1 ∧
     ((startDecelerando e now raw).lane i).nudgeUntil = 0) ∧
    (((startStaggerBlackout e now).lane i).burstRemain = 0 ∧
     ((startStaggerBlackout e now).lane i).nudgeMul = 1 ∧
     ((startStaggerBlackout e now).lane i).nudgeUntil = 0) ∧
    (((startBeat e now p).lane i).burstRemain = 0 ∧
     ((startBeat e now p).lane i).freezeUntil = 0 ∧
     ((startBeat e now p).lane i).nudgeMul = 1 ∧
     ((startBeat e now p).lane i).nudgeUntil = 0) ∧
    (((startCounterbalance e now up down rawDelta).lane i).nudgeMul = 1 ∧
     ((startCounterbalance e now up down rawDelta).lane i).burstRemain
        = (e.lane i).burstRemain ∧
     ((startCounterbalance e now up down rawDelta).lane i).freezeUntil
        = (e.lane i).freezeUntil ∧
     ((startCounterbalance e now up down rawDelta).lane i).nudgeUntil
        = (e.lane i).nudgeUntil) ∧
    (((startPhaseSnap e now ref fol).lane i).burstRemain = (e.lane i).burstRemain ∧
     ((startPhaseSnap e now ref fol).lane i).freezeUntil = (e.lane i).freezeUntil ∧
     ((startPhaseSnap e now ref fol).lane i).nudgeMul = (e.lane i).nudgeMul ∧
     ((startPhaseSnap e now ref fol).lane i).nudgeUntil = (e.lane i).nudgeUntil) ∧
    ((startScopeCreep e now).lane i = e.lane i) := by
  have hsnap : (startPhaseSnap e now ref fol).lane i
      = if i = fol then
          { e.lane i with savedHz := (e.lane i).baseHz,
                          baseHz := (e.lane ref).baseHz,
                          nextDue := (e.lane ref).nextDue }
        else e.lane i := rfl
  refine ⟨?_, ?_, ?_, ?_, ?_, ?_, ?_, rfl⟩
  · refine ⟨?_, ?_, ?_, ?_⟩ <;> simp [startEmailStorm, clearTransientsAll, clearTransients, updLanes, hi]
  · refine ⟨?_, ?_, ?_, ?_⟩ <;> simp [startAccelerando, clearTransientsAll, clearTransients, updLanes, hi]
  · refine ⟨?_, ?_, ?_, ?_⟩ <;> simp [startDecelerando, clearTransientsAll, clearTransients, updLanes, hi]
  · refine ⟨?_, ?_, ?_⟩ <;> simp [startStaggerBlackout, clearTransientsAll, clearTransients, updLanes, hi]
  · refine ⟨?_, ?_, ?_, ?_⟩ <;> simp [startBeat, clearTransientsAll, clearTransients, updLanes, hi]
  · refine ⟨?_, ?_, ?_, ?_⟩ <;> simp [startCounterbalance, updLanes, hi]
  · refine ⟨?_, ?_, ?_, ?_⟩ <;> (rw [hsnap]; split <;> rfl)

theorem clear_transients_at_start_witness :
    (0 : Nat) < e0.n ∧
    ((startEmailStorm e0 7).lane 0).burstRemain = 0 ∧
    ((startCounterbalance e0 7 0 1 0).lane 0).nudgeMul = 1 ∧
    ((startPhaseSnap e0 7 0 1).lane 0).burstRemain = (e0.lane 0).burstRemain ∧
    (startScopeCreep e0 7).lane 0 = e0.lane 0 := by
  have h := clear_transients_at_start e0 7 0 DEMBOW 0 1 0 0 1 0 (by decide)
  exact ⟨by decide, h.1.1, h.2.2.2.2.2.1.1, h.2.2.2.2.2.2.1.1, h.2.2.2.2.2.2.2⟩

/-- C5 counterexample: with a single configured lane, the retry loop
that Counterbalance and Phase Snap use to pick a second distinct lane
(do .. while (picked == avoid), with rng(0, NLANES-1) always 0) has still
produced nothing after 100 draws: it never terminates, so there is no
single-lane fallback on those paths. -/
theorem cbPickDown_one_lane_stuck :
    cbPickDown (rngN 0 0 3) 1 (fun k => k) 100 = none := by decide

/-- C5 (amended): only Email Storm's tick is protected: pickTwoDistinct
reports failure for fewer than two lanes and the storm then bursts lane 0
alone; the retry loop Counterbalance and Phase Snap use to pick the
second lane never succeeds with one configured lane (for every fuel and
every draw stream), i.e. the do-while does not terminate there. -/
theorem pick_two_distinct_fallback (n raw1 raw2 : Nat) (hn : n < 2)
    (e : Engine) (now rB1 rB2 rT avoidRaw : Nat) (raws : Nat → Nat) (fuel : Nat)
    (hn2 : e.n < 2) (hend : sdiff now e.stormEnd < 0)
    (htick : 0 ≤ sdiff now e.nextStormTick) :
    pickTwoDistinct n raw1 raw2 = none ∧
    ((handleEmailStorm e now raw1 raw2 rB1 rB2 rT).lane 0).burstRemain
      = rngN BURST_MIN_PULSES BURST_MAX_PULSES rB1 ∧
    cbPickDown (rngN 0 0 avoidRaw) 1 raws fuel = none := by
  refine ⟨?_, ?_, ?_⟩
  · unfold pickTwoDistinct
    rw [if_pos hn]
  · have hpick : pickTwoDistinct e.n raw1 raw2 = none := by
      unfold pickTwoDistinct
      rw [if_pos hn2]
    simp only [handleEmailStorm, hpick]
    rw [if_neg (by omega), if_pos htick]
    rfl
  · have h0 : rngN 0 0 avoidRaw = 0 := by
      unfold rngN
      omega
    rw [h0]
    induction fuel with
    | zero => rfl
    | succ k ih =>
      simp only [cbPickDown]
      rw [if_pos (show rngN 0 (1 - 1) (raws k) = 0 from by unfold rngN; omega)]
      exact ih

theorem pick_two_distinct_fallback_witness :
    ((1 : Nat) < 2 ∧ eOne.n < 2 ∧ sdiff 0 eOne.stormEnd < 0 ∧
      (0 : Int) ≤ sdiff 0 eOne.nextStormTick) ∧
    pickTwoDistinct 1 0 0 = none ∧
    ((handleEmailStorm eOne 0 0 0 7 0 0).lane 0).burstRemain
      = rngN BURST_MIN_PULSES BURST_MAX_PULSES 7 ∧
    cbPickDown (rngN 0 0 5) 1 (fun _ => 0) 50 = none := by
  have h := pick_two_distinct_fallback 1 0 0 (by decide) eOne 0 7 0 0 5 (fun _ => 0) 50
    (by decide) (by decide) (by decide)
  exact ⟨⟨by decide, by decide, by decide, by decide⟩, h.1, h.2.1, h.2.2⟩

theorem sum_take_le (xs : List ℚ) (h : ∀ w ∈ xs, 0 ≤ w) (k : Nat) :
    (xs.take k).sum ≤ xs.sum := by
  calc (xs.take k).sum ≤ (xs.take k).sum + (xs.drop k).sum := by
        have hd : 0 ≤ (xs.drop k).sum :=
          List.sum_nonneg (fun x hx => h x (List.drop_subset k xs hx))
        linarith
    _ = xs.sum := by rw [← List.sum_append, List.take_append_drop]

theorem sum_take_mono (xs : List ℚ) (h : ∀ w ∈ xs, 0 ≤ w) (k l : Nat) (hkl : k ≤ l) :
    (xs.take k).sum ≤ (xs.take l).sum := by
  have h2 : ∀ w ∈ xs.take l, 0 ≤ w := fun w hw => h w (List.take_subset l xs hw)
  have h3 := sum_take_le (xs.take l) h2 k
  rwa [List.take_take, min_eq_left hkl] at h3

theorem cumW_mono (ws : List ℚ) (hnn : ∀ w ∈ ws, 0 ≤ w) (hsum : ws.sum ≤ 1) :
    ∀ i j, i ≤ j → cumW ws i ≤ cumW ws j := by
  intro i j hij
  unfold cumW
  by_cases hi : i < ws.length
  · by_cases hj : j < ws.length
    · rw [if_pos hi, if_pos hj]
      exact sum_take_mono ws hnn _ _ (by omega)
    · rw [if_pos hi, if_neg hj]
      exact le_trans (sum_take_le ws hnn (i + 1)) hsum
  · rw [if_neg hi, if_neg (show ¬ j < ws.length by omega)]

/-- C7: with non-negative weights totalling at most 1 (as the configured
table does), buildWeights yields a non-decreasing cumulative table whose
final boundary is exactly 1.0, and every draw r in [0,1) lies in exactly
one bucket: a unique i with cumW[i-1] <= r < cumW[i], the index
i = NEFF being the implicit subtle-glitch fallback past all named
weights. -/
theorem weight_table_buckets (ws : List ℚ) (hnn : ∀ w ∈ ws, 0 ≤ w)
    (hsum : ws.sum ≤ 1) :
    (∀ i j, i ≤ j → cumW ws i ≤ cumW ws j) ∧
    cumW ws ws.length = 1 ∧
    (∀ r : ℚ, 0 ≤ r → r < 1 → ∃! i, i ≤ ws.length ∧ inBucket ws r i) := by
  have hmono := cumW_mono ws hnn hsum
  have hlast : cumW ws ws.length = 1 := by
    unfold cumW
    rw [if_neg (by omega)]
  refine ⟨hmono, hlast, ?_⟩
  intro r hr0 hr1
  have hPlen : r < cumW ws ws.length := by rw [hlast]; exact hr1
  have hex : ∃ i, r < cumW ws i := ⟨ws.length, hPlen⟩
  have hspec : r < cumW ws (Nat.find hex) := Nat.find_spec hex
  have hle : Nat.find hex ≤ ws.length := Nat.find_min' hex hPlen
  have hlow : bucketLow ws (Nat.find hex) ≤ r := by
    unfold bucketLow
    split
    · exact hr0
    · rename_i h0
      have hm := Nat.find_min hex (show Nat.find hex - 1 < Nat.find hex by omega)
      exact not_lt.mp hm
  refine ⟨Nat.find hex, ⟨hle, hlow, hspec⟩, ?_⟩
  intro j hj
  obtain ⟨hjle, hjlow, hjhi⟩ := hj
  have hij : Nat.find hex ≤ j := Nat.find_min' hex hjhi
  by_contra hne
  have hj0 : j ≠ 0 := by omega
  have hlt : Nat.find hex ≤ j - 1 := by omega
  have hbd : cumW ws (Nat.find hex) ≤ bucketLow ws j := by
    unfold bucketLow
    rw [if_neg hj0]
    exact hmono _ _ hlt
  exact absurd hspec (not_lt.2 (le_trans hbd hjlow))

theorem weight_table_buckets_witness :
    ((∀ w ∈ weights, (0 : ℚ) ≤ w) ∧ weights.sum ≤ 1) ∧
    (cumW weights weights.length = 1 ∧
     ∃! i, i ≤ weights.length ∧ inBucket weights (1 / 2) i) := by
  have hnn : ∀ w ∈ weights, (0 : ℚ) ≤ w := by
    intro w hw
    simp only [weights, List.mem_cons, List.not_mem_nil, or_false] at hw
    rcases hw with rfl | rfl | rfl | rfl | rfl | rfl | rfl | rfl | rfl | rfl | rfl <;> norm_num
  have hsum : weights.sum ≤ 1 := by
    norm_num [weights]
  have h := weight_table_buckets weights hnn hsum
  exact ⟨⟨hnn, hsum⟩, h.2.1, h.2.2 (1 / 2) (by norm_num) (by norm_num)⟩

end GlitchClocks
